import Mathlib

/-!
Verification of the tapsync overlay renderer and layout editor.

Shallow embedding of the pure state and geometry logic of
src/files/overlay.py (class OverlayWindow) and src/files/editor.py
(class EditorCanvas).  Pixel quantities are modelled as rationals:
the Python code computes with floats, but every claim under scrutiny
involves only small exact values where float arithmetic is exact.
Python round (bankers rounding, half to even) and int() truncation
are embedded explicitly.
-/

namespace Tapsync

/-- A key of a layout, as stored in the key dicts of the source
(fields id, label, x, y, w, h, color, text_color; the two colour
fields are None or a hex string). -/
structure Key where
  id : String
  label : String
  x : ℚ
  y : ℚ
  w : ℚ
  h : ℚ
  color : Option String
  text_color : Option String
deriving DecidableEq

/-- The theme parameters consumed by overlay.py and editor.py.  The
source reads them with dict.get(name, default); each field here holds
the resolved value of that lookup. -/
structure Theme where
  key_unit_px : ℚ
  key_gap_px : ℚ
  key_height_px : ℚ
  mouse_pressed : String
  key_pressed : String
  key_idle : String
  mouse_idle : String
  key_outline : String
  key_text : String
deriving DecidableEq

/-- The default theme values used as dict.get fallbacks in
overlay.py (UNIT = 44, gap 4, height UNIT, and the hex fallbacks of
paintEvent). -/
def default_theme : Theme :=
  { key_unit_px := 44
    key_gap_px := 4
    key_height_px := 44
    mouse_pressed := "#1e90ff"
    key_pressed := "#7b68ee"
    key_idle := "#2a2a3a"
    mouse_idle := "#1e3a5f"
    key_outline := "#444466"
    key_text := "#ffffff" }

/-- The module constant PAD = 10 shared by overlay.py and editor.py. -/
def PAD : ℤ := 10

/-- Python int() truncation toward zero on a rational. -/
def ratTrunc (q : ℚ) : ℤ := Int.tdiv q.num (q.den : ℤ)

/-- Python round: nearest integer, ties to even (bankers rounding). -/
def pyRound (q : ℚ) : ℤ :=
  let f : ℤ := ⌊q⌋
  let r : ℚ := q - (f : ℚ)
  if r < 1/2 then f
  else if 1/2 < r then f + 1
  else if 2 ∣ f then f else f + 1

/-- Horizontal pixel extent of a key as summed in
OverlayWindow._compute_geometry: rx = x*(unit+gap) + w*unit + (w-1)*gap. -/
def keySpanX (k : Key) (u g : ℚ) : ℚ :=
  k.x * (u + g) + k.w * u + (k.w - 1) * g

/-- Vertical pixel extent of a key as summed in
OverlayWindow._compute_geometry: ry = y*(kh+gap) + h*kh + (h-1)*gap. -/
def keySpanY (k : Key) (kh g : ℚ) : ℚ :=
  k.y * (kh + g) + k.h * kh + (k.h - 1) * g

/-- OverlayWindow._compute_geometry: running maxima over all keys
starting at 0, truncated to int, plus PAD on both sides. -/
def compute_geometry (keys : List Key) (t : Theme) : ℤ × ℤ :=
  let u := t.key_unit_px
  let g := t.key_gap_px
  let kh := t.key_height_px
  let max_x := keys.foldl (fun m k => max m (keySpanX k u g)) 0
  let max_y := keys.foldl (fun m k => max m (keySpanY k kh g)) 0
  (ratTrunc max_x + PAD * 2, ratTrunc max_y + PAD * 2)

/-- The renderer state of OverlayWindow: displayed keys, theme, the
pressed-set, and the fixed window size last set by _compute_geometry. -/
structure OverlayState where
  keys : List Key
  theme : Theme
  pressed : Finset String
  size : ℤ × ℤ
deriving DecidableEq

/-- OverlayWindow.update_key.  Returns the new state together with a
Bool recording whether self.update() (a repaint request) was issued. -/
def update_key (s : OverlayState) (key_id : String) (pressed : Bool) :
    OverlayState × Bool :=
  if pressed = true ∧ key_id ∉ s.pressed then
    ({ s with pressed := insert key_id s.pressed }, true)
  else if pressed = false ∧ key_id ∈ s.pressed then
    ({ s with pressed := s.pressed.erase key_id }, true)
  else
    (s, false)

/-- OverlayWindow.load_keys: replaces the key list, optionally the
theme, and recomputes the geometry.  The pressed-set field is not
touched by the source. -/
def load_keys (s : OverlayState) (keys : List Key) (theme : Option Theme) :
    OverlayState :=
  let t := theme.getD s.theme
  { keys := keys
    theme := t
    pressed := s.pressed
    size := compute_geometry keys t }

/-- Python truthiness of an optional string: None and the empty
string are falsy, every other string is truthy. -/
def truthyStr : Option String → Bool
  | none => false
  | some s => decide (s ≠ "")

/-- Python str.startswith, at the character-list level. -/
def startswith (s pre : String) : Bool :=
  pre.data.isPrefixOf s.data

/-- overlay._hex(color, fallback): returns QColor(color) when color is
truthy, else QColor(fallback).  QColor construction from a string does
not raise, so the except branch of the source is dead; the value is
modelled by the colour string itself. -/
def hexColor (color : Option String) (fallback : String) : String :=
  if truthyStr color then color.getD fallback else fallback

/-- The Python expression (c and None): the first operand when it is
falsy, otherwise None.  Appears at overlay.py line 140. -/
def pyAndNone (c : Option String) : Option String :=
  if truthyStr c then none else c

/-- Background colour choice per key in OverlayWindow.paintEvent
(lines 130 to 147). -/
def bg_color (k : Key) (pressedSet : Finset String) (t : Theme) : String :=
  if k.id ∈ pressedSet then
    if startswith k.id "mouse_" then hexColor none t.mouse_pressed
    else hexColor (pyAndNone k.color) t.key_pressed
  else
    if truthyStr k.color then hexColor k.color t.key_idle
    else if startswith k.id "mouse_" then hexColor none t.mouse_idle
    else hexColor none t.key_idle

/-- Pixel rectangle of a key in OverlayWindow.paintEvent
(lines 155 to 161): (px, py, pw, ph). -/
def paint_rect (k : Key) (u g kh : ℚ) : ℚ × ℚ × ℚ × ℚ :=
  ((PAD : ℚ) + k.x * (u + g), (PAD : ℚ) + k.y * (kh + g),
   k.w * u + (k.w - 1) * g, k.h * kh + (k.h - 1) * g)

/-- EditorCanvas._key_rect (lines 78 to 84): same formula as the
overlay paint rectangle. -/
def key_rect (k : Key) (u g kh : ℚ) : ℚ × ℚ × ℚ × ℚ :=
  ((PAD : ℚ) + k.x * (u + g), (PAD : ℚ) + k.y * (kh + g),
   k.w * u + (k.w - 1) * g, k.h * kh + (k.h - 1) * g)

/-- EditorCanvas._snap_pos (lines 86 to 94): identity when snapping is
off; otherwise rounds x / (unit+gap) and y / (row_height+gap) with
Python round. -/
def snap_pos (snapOn : Bool) (u g kh : ℚ) (x y : ℚ) : ℚ × ℚ :=
  if snapOn = false then (x, y)
  else
    let gx := u + g
    let gy := kh + g
    ((pyRound (x / gx) : ℚ), (pyRound (y / gy) : ℚ))

/-- The drag position computation of EditorCanvas.mouseMoveEvent
(lines 237 to 249): raw ratios from the pointer position minus the
grab offset minus PAD, passed through _snap_pos, then written back as
max(0.0, float(sx) if snap else max(0.0, raw_x)). -/
def drag_new_pos (snapOn : Bool) (u g kh : ℚ) (posX posY offX offY : ℚ) :
    ℚ × ℚ :=
  let raw_x := (posX - offX - (PAD : ℚ)) / (u + g)
  let raw_y := (posY - offY - (PAD : ℚ)) / (kh + g)
  let s := snap_pos snapOn u g kh raw_x raw_y
  (max 0 (if snapOn then s.1 else max 0 raw_x),
   max 0 (if snapOn then s.2 else max 0 raw_y))

/-- The state of EditorCanvas relevant to the claims: the working key
list and the selection.  In the source the selection is an object
reference to one of the key dicts of the list; that reference is
modelled as an index into the list. -/
structure EditorState where
  keys : List Key
  selected : Option ℕ
deriving DecidableEq

/-- The key dict built by EditorCanvas.add_key, with the generated
uuid suffix (uuid.uuid4().hex[:6]) passed in explicitly. -/
def new_key (suffix : String) : Key :=
  { id := "key_" ++ suffix
    label := "New"
    x := 0
    y := 9
    w := 1
    h := 1
    color := none
    text_color := none }

/-- EditorCanvas.add_key (lines 124 to 136), with the random uuid
suffix made an explicit argument: appends the new key and selects it. -/
def add_key (s : EditorState) (suffix : String) : EditorState :=
  { keys := s.keys ++ [new_key suffix]
    selected := some s.keys.length }

/-- EditorCanvas.delete_selected (lines 138 to 147): no-op without a
selection; otherwise keeps the keys whose id differs from the selected
id and clears the selection.  The inner none branch is unreachable in
the source, where the selection reference always denotes a live dict. -/
def delete_selected (s : EditorState) : EditorState :=
  match s.selected with
  | none => s
  | some i =>
    match s.keys.get? i with
    | none => s
    | some sel =>
      { keys := s.keys.filter (fun k => k.id != sel.id)
        selected := none }

/-- A partial field patch as passed to EditorCanvas.update_selected:
each present entry overwrites the corresponding key dict field. -/
structure KeyPatch where
  id : Option String
  label : Option String
  x : Option ℚ
  y : Option ℚ
  w : Option ℚ
  h : Option ℚ
  color : Option (Option String)
  text_color : Option (Option String)

/-- Writing the entries of a patch dict into a key dict. -/
def apply_patch (p : KeyPatch) (k : Key) : Key :=
  { id := p.id.getD k.id
    label := p.label.getD k.label
    x := p.x.getD k.x
    y := p.y.getD k.y
    w := p.w.getD k.w
    h := p.h.getD k.h
    color := p.color.getD k.color
    text_color := p.text_color.getD k.text_color }

/-- In-place update of a list element at an index (models mutating the
dict referenced by the selection, which is an element of the list). -/
def modify_at (f : Key → Key) : ℕ → List Key → List Key
  | _, [] => []
  | 0, k :: ks => f k :: ks
  | n + 1, k :: ks => k :: modify_at f n ks

/-- EditorCanvas.update_selected (lines 149 to 155): no-op without a
selection; otherwise writes the patch through the selection reference. -/
def update_selected (s : EditorState) (p : KeyPatch) : EditorState :=
  match s.selected with
  | none => s
  | some i =>
    { keys := modify_at (apply_patch p) i s.keys
      selected := some i }

/-- The per-key horizontal extent maximised in
EditorCanvas._resize_to_fit: PAD + x*(u+g) + w*u + (w-1)*g. -/
def fitSpanX (k : Key) (u g : ℚ) : ℚ :=
  (PAD : ℚ) + k.x * (u + g) + k.w * u + (k.w - 1) * g

/-- The per-key vertical extent maximised in
EditorCanvas._resize_to_fit: PAD + y*(kh+g) + h*kh + (h-1)*g. -/
def fitSpanY (k : Key) (kh g : ℚ) : ℚ :=
  (PAD : ℚ) + k.y * (kh + g) + k.h * kh + (k.h - 1) * g

/-- EditorCanvas._resize_to_fit (lines 260 to 266): returns the
current minimum size unchanged on an empty key list (guarded early
return), otherwise the truncated maxima plus PAD*4. -/
def resize_to_fit (keys : List Key) (u g kh : ℚ) (curMin : ℤ × ℤ) :
    ℤ × ℤ :=
  match keys with
  | [] => curMin
  | k0 :: ks =>
    let mx := ks.foldl (fun m k => max m (fitSpanX k u g)) (fitSpanX k0 u g)
    let my := ks.foldl (fun m k => max m (fitSpanY k kh g)) (fitSpanY k0 kh g)
    (ratTrunc mx + PAD * 4, ratTrunc my + PAD * 4)

/-- An overlay state with no key pressed, for concrete instantiations. -/
def ovEx : OverlayState :=
  { keys := [], theme := default_theme, pressed := ∅, size := (20, 20) }

/-- An overlay state in which the key id a is currently pressed. -/
def ovPressedEx : OverlayState :=
  { keys := [], theme := default_theme, pressed := {"a"}, size := (20, 20) }

/-- C1: update_key makes membership of the id in the pressed-set match
the pressed flag, issues a repaint request exactly when the pressed-set
changed, a second press of an already pressed id issues no repaint
(so two presses in a row repaint exactly once), and a release of an id
that is not in the pressed-set changes nothing and repaints nothing. -/
theorem update_key_spec (s : OverlayState) (id : String) (p : Bool) :
    (id ∈ (update_key s id p).1.pressed ↔ p = true) ∧
    ((update_key s id p).2 = true ↔ (update_key s id p).1.pressed ≠ s.pressed) ∧
    (id ∉ s.pressed → (update_key s id true).2 = true) ∧
    ((update_key (update_key s id true).1 id true).2 = false) ∧
    (id ∉ s.pressed → update_key s id false = (s, false)) := by
  by_cases h : id ∈ s.pressed <;> cases p <;>
    simp [update_key, h, Finset.insert_ne_self, Finset.erase_ne_self]

/-- Witness for C1 at a concrete state: pressing a registers it, and
releasing a when it is not pressed is a silent no-op. -/
theorem update_key_spec_witness :
    ("a" ∈ (update_key ovEx "a" true).1.pressed ↔ true = true) ∧
    ((update_key (update_key ovEx "a" true).1 "a" true).2 = false) ∧
    (update_key ovEx "a" false = (ovEx, false)) :=
  ⟨(update_key_spec ovEx "a" true).1,
   (update_key_spec ovEx "a" true).2.2.2.1,
   (update_key_spec ovEx "a" false).2.2.2.2 (by decide)⟩

/-- C3 counterexample: load_keys does not clear the pressed-set; a
state with a pressed stays pressed after the layout swap. -/
theorem load_keys_counterexample :
    (load_keys ovPressedEx [] none).pressed ≠ (∅ : Finset String) := by
  decide

/-- C3 amended: after load_keys the displayed key list is the given
list and the bounding size is recomputed from it, but the pressed-set
is left unchanged rather than reset to empty. -/
theorem load_keys_spec (s : OverlayState) (keys : List Key)
    (th : Option Theme) :
    (load_keys s keys th).pressed = s.pressed ∧
    (load_keys s keys th).keys = keys ∧
    (load_keys s keys th).size = compute_geometry keys (th.getD s.theme) :=
  ⟨rfl, rfl, rfl⟩

/-- An empty field patch, for concrete instantiations. -/
def patchEx : KeyPatch :=
  { id := none, label := none, x := none, y := none, w := none, h := none,
    color := none, text_color := none }

/-- C9: with no selection, delete_selected and update_selected leave
the editor state unchanged and raise no error. -/
theorem no_selection_noop (s : EditorState) (p : KeyPatch)
    (h : s.selected = none) :
    delete_selected s = s ∧ update_selected s p = s := by
  constructor
  · unfold delete_selected
    rw [h]
  · unfold update_selected
    rw [h]

/-- Witness for C9 at a concrete selection-free editor state. -/
theorem no_selection_noop_witness :
    delete_selected { keys := [], selected := none } =
      { keys := [], selected := none } ∧
    update_selected { keys := [], selected := none } patchEx =
      { keys := [], selected := none } :=
  no_selection_noop { keys := [], selected := none } patchEx rfl

/-- C10: on an empty key list the overlay geometry computation yields
the window size PAD*2 by PAD*2, that is 20 by 20, and the editor
resize-to-fit returns the current minimum size unchanged. -/
theorem empty_layout_geometry (t : Theme) (u g kh : ℚ) (cur : ℤ × ℤ) :
    compute_geometry [] t = (20, 20) ∧ resize_to_fit [] u g kh cur = cur := by
  constructor
  · simp only [compute_geometry, List.foldl_nil]
    norm_num [ratTrunc, PAD, Rat.num_ofNat, Rat.den_ofNat, Int.zero_tdiv]
  · rfl

/-- A single-unit key at the grid origin, for concrete instantiations. -/
def kUnitEx : Key :=
  { id := "a", label := "A", x := 0, y := 0, w := 1, h := 1,
    color := none, text_color := none }

/-- C2: both the editor rectangle and the overlay paint rectangle are
px = pad + x*(unit+gap), py = pad + y*(row_height+gap),
pw = w*unit + (w-1)*gap, ph = h*row_height + (h-1)*gap with the
source constant pad = 10; with unit 44 and gap 4 the x coordinate is
10 + x*48, and a key of width 1 is exactly 44 pixels wide. -/
theorem key_rect_spec (k : Key) (u g kh : ℚ) :
    key_rect k u g kh =
      (10 + k.x * (u + g), 10 + k.y * (kh + g),
       k.w * u + (k.w - 1) * g, k.h * kh + (k.h - 1) * g) ∧
    paint_rect k u g kh = key_rect k u g kh ∧
    (key_rect k 44 4 kh).1 = 10 + k.x * 48 ∧
    (k.w = 1 → (key_rect k 44 4 kh).2.2.1 = 44) := by
  refine ⟨?_, rfl, ?_, ?_⟩
  · norm_num [key_rect, PAD]
  · norm_num [key_rect, PAD]
  · intro hw
    simp [key_rect, hw]

/-- Witness for C2 at a concrete width-one key. -/
theorem key_rect_spec_witness :
    kUnitEx.w = 1 ∧ (key_rect kUnitEx 44 4 44).2.2.1 = 44 :=
  ⟨rfl, (key_rect_spec kUnitEx 44 4 44).2.2.2 rfl⟩

/-- The compound hexColor (c and None) fb of overlay.py line 140
always yields the fallback: the first operand is never truthy. -/
theorem hexColor_pyAndNone (c : Option String) (fb : String) :
    hexColor (pyAndNone c) fb = fb := by
  cases c with
  | none => rfl
  | some s =>
    by_cases h : s = "" <;> simp [pyAndNone, hexColor, truthyStr, h]

/-- A pressed mouse key, for concrete instantiations. -/
def kMouseEx : Key :=
  { id := "mouse_left", label := "LMB", x := 0, y := 0, w := 1, h := 1,
    color := some "#ff0000", text_color := none }

/-- C4: paint background precedence per key: theme mouse-pressed when
pressed and the id starts with mouse_, theme key-pressed when pressed
otherwise (a per-key idle colour override is discarded while pressed),
the per-key colour when idle and the override is a non-empty string,
theme mouse-idle when idle without override on a mouse id, and theme
key-idle otherwise. -/
theorem bg_color_spec (k : Key) (ps : Finset String) (t : Theme) :
    (k.id ∈ ps → startswith k.id "mouse_" = true →
      bg_color k ps t = t.mouse_pressed) ∧
    (k.id ∈ ps → startswith k.id "mouse_" = false →
      bg_color k ps t = t.key_pressed) ∧
    (k.id ∉ ps → ∀ c : String, k.color = some c → c ≠ "" →
      bg_color k ps t = c) ∧
    (k.id ∉ ps → truthyStr k.color = false →
      startswith k.id "mouse_" = true → bg_color k ps t = t.mouse_idle) ∧
    (k.id ∉ ps → truthyStr k.color = false →
      startswith k.id "mouse_" = false → bg_color k ps t = t.key_idle) := by
  refine ⟨?_, ?_, ?_, ?_, ?_⟩
  · intro hm hstart
    simp [bg_color, hm, hstart, hexColor, truthyStr]
  · intro hm hstart
    simp [bg_color, hm, hstart, hexColor_pyAndNone]
  · intro hm c hc hne
    simp [bg_color, hm, hc, truthyStr, hne, hexColor]
  · intro hm hc hstart
    simp only [bg_color, eq_false_intro hm, if_false, hc, hstart]
    simp [hexColor, truthyStr]
  · intro hm hc hstart
    simp only [bg_color, eq_false_intro hm, if_false, hc, hstart]
    simp [hexColor, truthyStr]

/-- Witness for C4: a pressed mouse key with a per-key override paints
in the theme mouse-pressed colour, and the same key while idle paints
in its own override colour. -/
theorem bg_color_spec_witness :
    bg_color kMouseEx {"mouse_left"} default_theme =
      default_theme.mouse_pressed ∧
    bg_color kMouseEx (∅ : Finset String) default_theme = "#ff0000" :=
  ⟨(bg_color_spec kMouseEx {"mouse_left"} default_theme).1
      (by decide) (by decide),
   (bg_color_spec kMouseEx (∅ : Finset String) default_theme).2.2.1
      (by decide) "#ff0000" rfl (by decide)⟩

/-- C5: with snap enabled, a pointer 48 px to the right of the pad
(one full grid pitch at unit 44, gap 4, so raw ratio exactly 1) must
land the key at grid cell 1 by the spec (round of the raw ratio), but
the code divides the already-divided ratio by the pitch again inside
_snap_pos and yields grid cell 0. -/
theorem drag_snap_divergence :
    drag_new_pos true 44 4 44 58 58 0 0 = (0, 0) ∧
    pyRound ((58 - 0 - (PAD : ℚ)) / (44 + 4)) = 1 := by
  constructor
  · simp only [drag_new_pos, snap_pos, PAD]
    norm_num [pyRound]
  · simp only [PAD]
    norm_num [pyRound]

/-- C7: _snap_pos is not idempotent: at unit 44, gap 4, row height 44
it maps (48, 48) to (1, 1), but maps (1, 1) on to (0, 0), because each
application divides by the grid pitch again. -/
theorem snap_pos_not_idempotent :
    snap_pos true 44 4 44 (snap_pos true 44 4 44 48 48).1
        (snap_pos true 44 4 44 48 48).2 ≠
      snap_pos true 44 4 44 48 48 := by
  have h1 : snap_pos true 44 4 44 48 48 = (1, 1) := by
    simp only [snap_pos]
    norm_num [pyRound]
  have h2 : snap_pos true 44 4 44 1 1 = (0, 0) := by
    simp only [snap_pos]
    norm_num [pyRound]
  rw [h1]
  show snap_pos true 44 4 44 1 1 ≠ (1, 1)
  rw [h2]
  intro hcontra
  exact absurd (congrArg Prod.fst hcontra) (by norm_num)

/-- Two distinct keys sharing the id a, which the data model permits. -/
def kDupA : Key :=
  { id := "a", label := "left", x := 0, y := 0, w := 1, h := 1,
    color := none, text_color := none }

/-- Second key with the duplicate id a. -/
def kDupB : Key :=
  { id := "a", label := "right", x := 1, y := 0, w := 1, h := 1,
    color := none, text_color := none }

/-- C6 counterexample: with two keys sharing the selected id,
delete_selected removes both entries, not exactly one. -/
theorem delete_selected_counterexample :
    (delete_selected { keys := [kDupA, kDupB], selected := some 0 }).keys.length
        = 0 ∧
    ([kDupA, kDupB] : List Key).length = 2 := by
  constructor <;> rfl

/-- Keeping the keys whose id differs from a given id drops exactly
the number of keys carrying that id. -/
theorem length_filter_ne_id (id0 : String) (l : List Key) :
    (l.filter (fun k => k.id != id0)).length
        + l.countP (fun k => k.id == id0) = l.length := by
  induction l with
  | nil => rfl
  | cons k ks ih =>
    by_cases h : k.id = id0 <;>
      simp [List.filter_cons, List.countP_cons, h] <;> omega

/-- C6 amended: with a selection, delete_selected keeps exactly the
keys whose id differs from the selected id and clears the selection;
when the selected id occurs once in the list this removes exactly one
entry, but all entries sharing the id are removed together. -/
theorem delete_selected_spec (s : EditorState) (i : ℕ) (sel : Key)
    (hs : s.selected = some i) (hg : s.keys.get? i = some sel) :
    (delete_selected s).keys = s.keys.filter (fun k => k.id != sel.id) ∧
    (delete_selected s).selected = none ∧
    (s.keys.countP (fun k => k.id == sel.id) = 1 →
      (delete_selected s).keys.length + 1 = s.keys.length) := by
  have hdel : delete_selected s =
      { keys := s.keys.filter (fun k => k.id != sel.id), selected := none } := by
    simp only [delete_selected, hs, hg]
  refine ⟨by rw [hdel], by rw [hdel], ?_⟩
  intro hcount
  rw [hdel]
  have hlen := length_filter_ne_id sel.id s.keys
  rw [hcount] at hlen
  exact hlen

/-- Witness for C6 at a concrete one-key state with a unique id. -/
theorem delete_selected_spec_witness :
    (delete_selected { keys := [kDupA], selected := some 0 }).keys =
      ([kDupA] : List Key).filter (fun k => k.id != kDupA.id) ∧
    (delete_selected { keys := [kDupA], selected := some 0 }).keys.length + 1
      = 1 :=
  ⟨(delete_selected_spec { keys := [kDupA], selected := some 0 } 0 kDupA
      rfl rfl).1,
   (delete_selected_spec { keys := [kDupA], selected := some 0 } 0 kDupA
      rfl rfl).2.2 (by decide)⟩

/-- C8 counterexample: the generated id is key_ plus a random six-digit
hex suffix with no collision check, so two add_key calls whose random
draws coincide produce two keys with the same id, not distinct ones. -/
theorem add_key_counterexample :
    ¬ ((add_key (add_key { keys := [], selected := none } "000000")
        "000000").keys.map Key.id).Nodup := by
  decide

/-- Appending a distinct suffix to a fixed front cancels on the left. -/
theorem string_append_left_cancel {a b c : String} (h : a ++ b = a ++ c) :
    b = c := by
  have hd := congrArg String.data h
  rw [String.data_append, String.data_append, List.append_right_inj] at hd
  exact congrArg String.mk hd

/-- C8 amended: add_key appends exactly one key with id key_ plus the
drawn suffix, default size one by one, at the fixed offset x 0, y 9,
and selects it; the ids of two calls differ whenever the drawn
suffixes differ, but no check against existing ids is made. -/
theorem add_key_spec (s : EditorState) (suffix : String) :
    (add_key s suffix).keys = s.keys ++ [new_key suffix] ∧
    (add_key s suffix).selected = some s.keys.length ∧
    (add_key s suffix).keys[s.keys.length]? = some (new_key suffix) ∧
    (new_key suffix).w = 1 ∧ (new_key suffix).h = 1 ∧
    (new_key suffix).x = 0 ∧ (new_key suffix).y = 9 ∧
    (new_key suffix).id = "key_" ++ suffix ∧
    (∀ s2 : String, suffix ≠ s2 → (new_key suffix).id ≠ (new_key s2).id) := by
  refine ⟨rfl, rfl, List.getElem?_concat_length s.keys (new_key suffix),
    rfl, rfl, rfl, rfl, rfl, ?_⟩
  intro s2 hne heq
  exact hne (string_append_left_cancel heq)

/-- Witness for C8: two adds with distinct drawn suffixes yield keys
with distinct ids. -/
theorem add_key_spec_witness :
    (add_key { keys := [], selected := none } "aaaaaa").keys =
      [] ++ [new_key "aaaaaa"] ∧
    (new_key "aaaaaa").id ≠ (new_key "bbbbbb").id :=
  ⟨(add_key_spec { keys := [], selected := none } "aaaaaa").1,
   (add_key_spec { keys := [], selected := none } "aaaaaa").2.2.2.2.2.2.2.2
      "bbbbbb" (by decide)⟩

end Tapsync
